import Mathlib

/-!
Verification development for the CulinaraAI recipe retrieval pipeline.

Shallow embedding of the retrieval / re-ranking / fallback-orchestration code:
  - `backend/services/mcp_orchestrator.py` (`_process_rag_pipeline`,
    `_check_dietary_compatibility`, `_is_valid_recipe`, `_process_web_pipeline`,
    `is_collection_title`, `_combine_results`),
  - `backend/rag_engine.py` (`search_recipes` score clamping, `_check_keyword_match`),
  - `backend/services/recipe_scraper_pipeline.py` (`scrape_recipe_from_url`).

Strings are modelled as Lean `String` (lists of characters); Python float scores are
modelled as `ℚ` (all score constants in the code are short decimals; the only place
where binary-float rounding could differ from exact rationals is the `len * 0.3`
threshold of `_is_valid_recipe`, and no theorem below depends on that boundary).
Python's `needle in haystack` is `subIn`; `str.lower` is `lowerS`; `str.strip` is
`stripS`; the regular expressions used by the classifiers are embedded as explicit
character-list scanners.
-/

namespace Culinara

/-! ### Characters and strings -/

/-- ASCII lower-casing of one character (Python `str.lower` on the ASCII range). -/
def lowerC (c : Char) : Char :=
  if 65 ≤ c.toNat ∧ c.toNat ≤ 90 then Char.ofNat (c.toNat + 32) else c

/-- Python `str.lower` (ASCII). -/
def lowerS (s : String) : String := ⟨s.data.map lowerC⟩

def isDigitC (c : Char) : Bool := 48 ≤ c.toNat && c.toNat ≤ 57

/-- Whitespace for `str.strip` and the `\s` regex class. -/
def isSpaceC (c : Char) : Bool := c = ' ' || c = '\t' || c = '\n' || c = '\r'

/-- The `\w` regex class: letters, digits, underscore. -/
def isWordC (c : Char) : Bool :=
  (65 ≤ c.toNat && c.toNat ≤ 90) || (97 ≤ c.toNat && c.toNat ≤ 122) ||
    isDigitC c || c = '_'

/-- `n` is a prefix of `h` (character lists). -/
def isPrefixL : List Char → List Char → Bool
  | [], _ => true
  | _ :: _, [] => false
  | a :: as, b :: bs => a = b && isPrefixL as bs

/-- `n` occurs as a contiguous substring of `h` (character lists). -/
def containsL (n : List Char) : List Char → Bool
  | [] => isPrefixL n []
  | c :: rest => isPrefixL n (c :: rest) || containsL n rest

/-- Python `needle in haystack` on strings. -/
def subIn (needle hay : String) : Bool := containsL needle.data hay.data

/-- Python `str.strip` (both ends). -/
def stripS (s : String) : String :=
  ⟨((s.data.dropWhile (fun c => isSpaceC c)).reverse.dropWhile
      (fun c => isSpaceC c)).reverse⟩

/-- Python `' '.join(xs)`. -/
def joinSp : List String → String
  | [] => ""
  | [x] => x
  | x :: rest => x ++ " " ++ joinSp rest

/-- Python `s.endswith(suffix)`. -/
def endsS (suffix s : String) : Bool := isPrefixL suffix.data.reverse s.data.reverse

/-- Does any string of `ps` occur as a prefix of `l`? -/
def prefAmong (ps : List String) (l : List Char) : Bool :=
  ps.any (fun p => isPrefixL p.data l)

/-- Does `p` hold of some suffix of `l` (regex `re.search` scanning)? -/
def someSuffix (p : List Char → Bool) : List Char → Bool
  | [] => p []
  | c :: rest => p (c :: rest) || someSuffix p rest

/-! ### Regex scanners used by the collection-page classifiers -/

/-- Tail of `^\d+[\+]?\s+` after the first digit: more digits, optional `+`,
then at least one whitespace character. -/
def numSpaceTail : List Char → Bool
  | [] => false
  | c :: rest =>
    if isDigitC c then numSpaceTail rest
    else if c = '+' then (match rest with | d :: _ => isSpaceC d | [] => false)
    else isSpaceC c

/-- Regex `^\d+[\+]?\s+` (mcp_orchestrator.py:720 and :775). -/
def startsNumSpace : List Char → Bool
  | [] => false
  | c :: rest => isDigitC c && numSpaceTail rest

/-- Alternatives of the listicle number pattern
`\d+[\+]?\s+(low carb|keto|paleo|vegan|recipes?|of our|favorite|healthy|easy|best|paneer|chicken)`
(`recipes?` is covered by the prefix `recipe`). -/
def numPhraseWords : List String :=
  ["low carb", "keto", "paleo", "vegan", "recipe", "of our",
   "favorite", "healthy", "easy", "best", "paneer", "chicken"]

/-- After `\d+[\+]?` : at least one whitespace, then one of `numPhraseWords`. -/
def numPhraseSpaces : List Char → Bool
  | [] => false
  | c :: rest => isSpaceC c && prefAmong numPhraseWords (rest.dropWhile (fun d => isSpaceC d))

def numPhraseTail : List Char → Bool
  | [] => false
  | c :: rest =>
    if isDigitC c then numPhraseTail rest
    else if c = '+' then numPhraseSpaces rest
    else numPhraseSpaces (c :: rest)

def numPhraseAt : List Char → Bool
  | [] => false
  | c :: rest => isDigitC c && numPhraseTail rest

/-- Regex `\d+[\+]?\s+(low carb|…|chicken)` searched anywhere (mcp_orchestrator.py:717). -/
def midNumPhrase (s : String) : Bool := someSuffix numPhraseAt s.data

/-- Regex `\brecipes\s*$` searched in `t` (mcp_orchestrator.py:707 and :766):
after trailing whitespace is dropped, the text ends in `recipes` preceded by a
word boundary. -/
def recipesEnd (s : String) : Bool :=
  let r := s.data.reverse.dropWhile (fun c => isSpaceC c)
  isPrefixL "recipes".data.reverse r &&
    (match r.drop 7 with | [] => true | c :: _ => !(isWordC c))

/-- After `\w+-\w+\s+` : the literal `recipes` followed by a word boundary. -/
def hyphenRecipesWord (l : List Char) : Bool :=
  isPrefixL "recipes".data l &&
    (match l.drop 7 with | [] => true | c :: _ => !(isWordC c))

/-- Inside `\w+-\w+\s+recipes\b`: second word-character run, then whitespace,
then `recipes\b`. -/
def hyphenSecondWord : List Char → Bool
  | [] => false
  | c :: rest =>
    if isWordC c then hyphenSecondWord rest
    else isSpaceC c && hyphenRecipesWord (rest.dropWhile (fun d => isSpaceC d))

/-- Inside `\w+-\w+\s+recipes\b`: first word-character run, then `-`. -/
def hyphenFirstWord : List Char → Bool
  | [] => false
  | c :: rest =>
    if isWordC c then hyphenFirstWord rest
    else c = '-' && (match rest with | d :: ds => isWordC d && hyphenSecondWord ds | [] => false)

def hyphenAt : List Char → Bool
  | [] => false
  | c :: rest => isWordC c && hyphenFirstWord rest

/-- Regex `\w+-\w+\s+recipes\b` searched anywhere (mcp_orchestrator.py:712 and :771). -/
def hyphenRecipes (s : String) : Bool := someSuffix hyphenAt s.data

/-- Nouns of the corpus collection pattern. -/
def corpusNouns : List String := ["snacks", "recipes", "dishes"]

/-- Optional diet adjective of the corpus collection pattern. -/
def corpusDiets : List String := ["vegan", "vegetarian", "paleo", "keto"]

/-- After `\d+\s+` (all whitespace dropped): `(vegan|vegetarian|paleo|keto)?\s*(snacks|recipes|dishes)`. -/
def corpusAfterSpaces (l : List Char) : Bool :=
  prefAmong corpusNouns l ||
    corpusDiets.any (fun d =>
      isPrefixL d.data l &&
        prefAmong corpusNouns ((l.drop d.data.length).dropWhile (fun c => isSpaceC c)))

def corpusNumTail : List Char → Bool
  | [] => false
  | c :: rest =>
    if isDigitC c then corpusNumTail rest
    else isSpaceC c && corpusAfterSpaces (rest.dropWhile (fun d => isSpaceC d))

def corpusNumAt : List Char → Bool
  | [] => false
  | c :: rest => isDigitC c && corpusNumTail rest

/-- Regex `\d+\s+(vegan|vegetarian|paleo|keto)?\s*(snacks|recipes|dishes)`
searched anywhere (mcp_orchestrator.py:253). -/
def corpusNumList (s : String) : Bool := someSuffix corpusNumAt s.data

/-! ### Data model -/

/-- Caller preferences (`Preferences` of the API layer); `goal` is not consulted
by the embedded pipeline region. -/
structure Preferences where
  diets : List String
  skill : Option String
  servings : Option Nat
  goal : Option String
deriving DecidableEq

/-- One corpus retrieval result, as returned by `rag_engine.search_recipes`:
the `score`/`keyword_match` fields plus the metadata keys the orchestrator reads.
`servingsText` models `str(metadata.get('facts', {}).get('servings', ''))`. -/
structure Candidate where
  score : ℚ
  keywordMatch : Bool
  title : String
  url : String
  ingredients : List String
  instructions : List String
  servingsText : String
deriving DecidableEq

/-- A recorded collection-page reference (`{'title': …, 'url': …}`). -/
structure CollectionPage where
  title : String
  url : String
deriving DecidableEq

/-- A scraped web recipe dict (`recipe_scraper_pipeline.parse_recipe` /
`extract_recipe_from_item_list_entry`); `description` is `none` when the key
is absent. -/
structure Recipe where
  title : String
  description : Option String
  ingredients : List String
  instructions : List String
  source : String
deriving DecidableEq

/-! ### Collection-page classifiers -/

/-- Corpus-path collection keywords (mcp_orchestrator.py:260-262). -/
def corpusCollectionKeywords : List String :=
  ["best", "top", "ideas", "collection",
   "easy recipes", "batch cooking recipes", "dinner recipes",
   "lunch recipes", "breakfast recipes", "snack recipes"]

/-- Corpus-path collection detection (mcp_orchestrator.py:249-264):
keyword containment, the numbered-list regex, or a plural `recipes` ending. -/
def isCollectionCorpus (title : String) : Bool :=
  let tl := lowerS title
  corpusCollectionKeywords.any (fun k => subIn k tl) || corpusNumList tl ||
    (endsS " recipes" tl || endsS "recipes |" tl)

/-- Web-path collection keywords (mcp_orchestrator.py:665-682). -/
def webCollectionKeywords : List String :=
  ["best", "top", "ideas", "collection", "recipes |",
   "non-vegetarian recipes", "vegetarian recipes", "vegan recipes",
   "non veg recipes", "veg recipes", "easy recipes",
   "10 best", "14 best", "9 best", "20 best", "40+", "672",
   "dinner recipes", "lunch recipes", "breakfast recipes",
   "keto recipes", "paleo recipes", "low carb recipes", "low-carb recipes",
   "gluten free recipes", "gluten-free recipes", "dairy free recipes", "dairy-free recipes",
   "free paleo", "favorite paleo", "healthy vegan",
   "mouthwatering", "crave-worthy", "add to your", "weekly menu",
   "recipes for", "recipe ideas", "meal ideas", "dinner ideas",
   "healthy recipes", "quick recipes", "simple recipes",
   "paneer recipes", "chicken recipes", "beef recipes", "fish recipes",
   "pasta recipes", "salad recipes", "soup recipes", "curry recipes"]

/-- `is_collection_title` (mcp_orchestrator.py:751-782), applied to the
lower-cased, stripped title: short titles, keyword containment, plural
`recipes` ending, the `X-Y recipes` pattern, a leading numeral, or a colon
followed by a list-continuation marker. -/
def collTitleCore (tl : String) : Bool :=
  if tl.data.length < 10 then true
  else
    webCollectionKeywords.any (fun k => subIn k tl) ||
    recipesEnd tl ||
    hyphenRecipes tl ||
    startsNumSpace tl.data ||
    (subIn ":" tl && (subIn "&" tl || subIn "and more" tl || subIn "more" tl))

/-- `is_collection_title(title)` (mcp_orchestrator.py:751-782). The classifier
reads only the title; the web-path code never passes a URL. -/
def isCollectionTitle (title : String) : Bool := collTitleCore (stripS (lowerS title))

/-- The inline collection check of the direct web-scrape loop
(mcp_orchestrator.py:685-726): the same rules as `is_collection_title` plus the
mid-string listicle number pattern. -/
def webInlineCore (tl : String) : Bool :=
  if tl.data.length < 10 then true
  else
    webCollectionKeywords.any (fun k => subIn k tl) ||
    recipesEnd tl ||
    hyphenRecipes tl ||
    midNumPhrase tl ||
    startsNumSpace tl.data ||
    (subIn ":" tl && (subIn "&" tl || subIn "and more" tl || subIn "more" tl))

def webInlineCollection (title : String) : Bool := webInlineCore (stripS (lowerS title))

/-! ### Dietary gate (`_check_dietary_compatibility`, mcp_orchestrator.py:441-525) -/

def nonVeganIngredients : List String :=
  ["chicken", "beef", "pork", "fish", "lamb", "turkey", "bacon", "sausage",
   "meat", "egg", "milk", "cheese", "butter", "cream", "yogurt", "honey",
   "whey", "gelatin", "lard"]

def nonVegetarianIngredients : List String :=
  ["chicken", "beef", "pork", "fish", "lamb", "turkey", "bacon",
   "sausage", "meat", "seafood", "prawn", "shrimp", "salmon", "tuna",
   "duck", "venison", "steak", "meatball", "ham"]

def highCarbTerms : List String := ["rice", "pasta", "bread", "potato", "noodle", "flour", "sugar"]

def veryHighCarbTerms : List String := ["pasta", "bread", "noodle", "flour"]

def lowCarbMarkers : List String := ["keto", "low carb", "cauliflower"]

def glutenTerms : List String := ["wheat", "flour", "pasta", "bread", "barley", "rye", "noodle"]

def dairyTerms : List String := ["milk", "cheese", "butter", "cream", "yogurt", "whey"]

def nonPaleoTerms : List String :=
  ["grain", "rice", "wheat", "pasta", "bread", "oat", "bean", "lentil",
   "peanut", "soy", "tofu", "dairy", "milk", "cheese", "sugar", "corn"]

/-- The per-diet rule of the `for diet in diet_preferences` loop
(mcp_orchestrator.py:460-523). `title` and `ingredients` are the lower-cased
strings the caller passes in; `hasNonVeg`, `hasLowCarb`, `hasMeat` are the
values precomputed before the loop. -/
def dietCheck (title ingredients : String) (hasNonVeg hasLowCarb hasMeat : Bool)
    (diet : String) : Bool :=
  let dl := lowerS diet
  if dl = "vegan" then
    nonVeganIngredients.all (fun ing => !(subIn ing ingredients || subIn ing title))
  else if dl = "vegetarian" then
    nonVegetarianIngredients.all (fun ing => !(subIn ing ingredients || subIn ing title))
  else if dl = "non-vegetarian" || dl = "non vegetarian" then
    hasMeat
  else if dl = "keto" || dl = "low carb" then
    if hasNonVeg && hasLowCarb then
      let isVeryHighCarb := veryHighCarbTerms.any
        (fun c => subIn c (lowerS ingredients) || subIn c (lowerS title))
      if isVeryHighCarb && !hasMeat then
        lowCarbMarkers.any (fun kw => subIn kw (lowerS title))
      else true
    else
      if highCarbTerms.any (fun c => subIn c ingredients || subIn c title) then
        lowCarbMarkers.any (fun kw => subIn kw title)
      else true
  else if dl = "gluten free" then
    if glutenTerms.any (fun g => subIn g ingredients) then
      subIn "gluten free" title || subIn "gluten-free" ingredients
    else true
  else if dl = "dairy free" then
    if dairyTerms.any (fun d => subIn d ingredients) then
      subIn "dairy free" title || subIn "dairy-free" ingredients
    else true
  else if dl = "paleo" then
    if nonPaleoTerms.any (fun x => subIn x (lowerS ingredients) || subIn x (lowerS title)) then
      subIn "paleo" (lowerS title)
    else true
  else true

/-- `_check_dietary_compatibility(title, ingredients, diet_preferences)`
(mcp_orchestrator.py:441-525). Returns `true` iff no diet rule rejects. -/
def checkDietaryCompatibility (title ingredients : String) (diets : List String) : Bool :=
  let hasNonVeg := diets.any (fun d => lowerS d = "non-vegetarian" || lowerS d = "non vegetarian")
  let hasLowCarb := diets.any (fun d => lowerS d = "keto" || lowerS d = "low carb")
  let hasMeat := nonVegetarianIngredients.any
    (fun ing => subIn ing (lowerS ingredients) || subIn ing (lowerS title))
  diets.all (fun diet => dietCheck title ingredients hasNonVeg hasLowCarb hasMeat diet)

/-! ### Recipe validator (`_is_valid_recipe`, mcp_orchestrator.py:527-570) -/

def invalidTitleTerms : List String :=
  ["news", "trends", "subscribe", "newsletter", "sign up",
   "download", "app", "contact", "about", "privacy"]

def nonFoodTerms : List String :=
  ["subscribe", "newsletter", "sign up", "download", "app",
   "social", "follow", "facebook", "instagram", "twitter",
   "email", "contact", "privacy", "terms", "policy",
   "advertisement", "sponsored", "affiliate"]

def realFoodIndicators : List String :=
  ["chicken", "beef", "pork", "fish", "rice", "pasta",
   "tomato", "onion", "garlic", "salt", "pepper", "oil",
   "flour", "sugar", "butter", "milk", "egg", "cheese",
   "vegetable", "fruit", "herb", "spice", "water",
   "paneer", "tofu", "lentil", "bean", "chickpea",
   "potato", "carrot", "broccoli", "spinach", "kale",
   "quinoa", "oat", "almond", "cashew", "coconut"]

/-- `_is_valid_recipe(recipe)` (mcp_orchestrator.py:527-570). The 30% cutoff
compares the number of non-food vocabulary TERMS occurring anywhere in the
joined ingredient text against `len(ingredients) * 0.3` (the Python float 0.3
is modelled as the exact rational 3/10; no input used below sits within a
float rounding error of the cutoff). -/
def isValidRecipe (title : String) (ingredients : List String) : Bool :=
  let tl := lowerS title
  if invalidTitleTerms.any (fun t => subIn t tl) then false
  else if ingredients.isEmpty then false
  else
    let itext := lowerS (joinSp ingredients)
    let nonFoodCount := (nonFoodTerms.filter (fun t => subIn t itext)).length
    if (ingredients.length : ℚ) * (3/10) < (nonFoodCount : ℚ) then false
    else realFoodIndicators.any (fun f => subIn f itext)

/-! ### Score arithmetic

`rag_engine.search_recipes` clamps the keyword-boosted cosine similarity into
`[0,1]` (rag_engine.py:413); the orchestrator then applies each later boost as
`score = min(1.0, score + c)` (mcp_orchestrator.py:313, 322, 333, 336, 341,
343, 357, 361). -/

/-- `max(0.0, min(1.0, x))`. -/
def clamp01 (x : ℚ) : ℚ := max 0 (min 1 x)

/-- `boosted_similarities[i] = max(0.0, min(1.0, similarities[i] + keyword_boost))`
(rag_engine.py:413). -/
def boostedSimilarity (sim kb : ℚ) : ℚ := clamp01 (sim + kb)

/-- One orchestrator boost step `min(1.0, score + b)`. -/
def applyBoost (s b : ℚ) : ℚ := min 1 (s + b)

/-- A sequence of orchestrator boost steps. -/
def applyBoosts (s : ℚ) (bs : List ℚ) : ℚ := bs.foldl applyBoost s

/-- `if cond: score = min(1.0, score + b)` — the shape of every conditional
boost in `_process_rag_pipeline`. -/
def condBoost (cond : Bool) (b s : ℚ) : ℚ := if cond then applyBoost s b else s

/-- The spec formula `clamp(similarity + sumOfBoosts, 0, 1)`; stated from the
spec text for comparison with the composed scoring the code performs. -/
def specFinalScore (sim : ℚ) (boosts : List ℚ) : ℚ := clamp01 (sim + boosts.sum)

/-! ### The RAG pipeline (`_process_rag_pipeline`, mcp_orchestrator.py:202-439) -/

/-- The proteins a user may specifically request (mcp_orchestrator.py:214-216). -/
def specificProteins : List String :=
  ["lamb", "beef", "chicken", "pork", "fish", "salmon", "tuna",
   "shrimp", "prawn", "lobster", "crab", "turkey", "duck",
   "tofu", "paneer", "tempeh", "seitan"]

/-- The `for protein in specific_proteins: if protein in query_lower: break`
loop (mcp_orchestrator.py:219-224): first listed protein contained in the
lower-cased query. -/
def findRequestedProtein (query : String) : Option String :=
  specificProteins.find? (fun p => subIn p (lowerS query))

/-- Servings-match test for `preferences.servings == 2` (mcp_orchestrator.py:303-310). -/
def servingsMatch2 (tl servingsText : String) : Bool :=
  subIn "for two" tl || subIn "for 2" tl || subIn "2" servingsText || subIn "two" servingsText

/-- Servings-match test for `preferences.servings == 4` (mcp_orchestrator.py:314-320). -/
def servingsMatch4 (servingsText : String) : Bool :=
  subIn "4" servingsText || subIn "four" servingsText ||
    subIn "3-4" servingsText || subIn "4-6" servingsText

def beginnerWords : List String := ["easy", "simple", "quick", "minute"]

def advancedWords : List String := ["gourmet", "classic", "traditional"]

/-- The servings soft boost (`if preferences and preferences.servings:` then
`if preferences.servings == 2: … elif preferences.servings == 4: …`,
mcp_orchestrator.py:296-322). -/
def servingsStage (prefs : Option Preferences) (tl servText : String) (s : ℚ) : ℚ :=
  match prefs with
  | some p =>
    match p.servings with
    | some n =>
      if n = 2 then condBoost (servingsMatch2 tl servText) (5/100) s
      else if n = 4 then condBoost (servingsMatch4 servText) (5/100) s
      else s
    | none => s
  | none => s

/-- The skill soft boosts (`if preferences and preferences.skill:` then the
`== 'Beginner'` / `== 'Advanced'` branches, mcp_orchestrator.py:324-343). -/
def skillStage (prefs : Option Preferences) (tl : String) (numSteps : Nat) (s : ℚ) : ℚ :=
  match prefs with
  | some p =>
    match p.skill with
    | some sk =>
      if sk = "Beginner" then
        condBoost (decide (0 < numSteps) && decide (numSteps ≤ 5)) (2/100)
          (condBoost (beginnerWords.any (fun w => subIn w tl)) (3/100) s)
      else if sk = "Advanced" then
        condBoost (decide (8 < numSteps)) (2/100)
          (condBoost (advancedWords.any (fun w => subIn w tl)) (3/100) s)
      else s
    | none => s
  | none => s

/-- The explicit-protein boost (mcp_orchestrator.py:345-362). -/
def proteinStage (rp : Option String) (tl il : String) (s : ℚ) : ℚ :=
  match rp with
  | some p =>
    if subIn p tl then applyBoost s (30/100)
    else if subIn p il then applyBoost s (15/100)
    else s
  | none => s

/-- All boosts applied to one candidate's score inside the
`_process_rag_pipeline` loop, in source order: servings (lines 296-322), skill
(lines 324-343), then the explicit-protein boost (lines 345-362). -/
def candidateBoostedScore (rp : Option String) (prefs : Option Preferences)
    (c : Candidate) : ℚ :=
  proteinStage rp (lowerS c.title) (lowerS (joinSp c.ingredients))
    (skillStage prefs (lowerS c.title) c.instructions.length
      (servingsStage prefs (lowerS c.title) c.servingsText c.score))

/-- `if preferences and preferences.diets:` followed by the
`_check_dietary_compatibility` call (mcp_orchestrator.py:279-293); `true`
means the candidate is filtered out. -/
def dietaryRejects (prefs : Option Preferences) (c : Candidate) : Bool :=
  match prefs with
  | some p =>
    if p.diets.isEmpty then false
    else !(checkDietaryCompatibility (lowerS c.title) (lowerS (joinSp c.ingredients)) p.diets)
  | none => false

/-- Whether a candidate contains the requested protein in its lower-cased
title or joined ingredient text (mcp_orchestrator.py:348-353 and 383-387). -/
def hasProteinB (p : String) (c : Candidate) : Bool :=
  subIn p (lowerS c.title) || subIn p (lowerS (joinSp c.ingredients))

/-- The per-result body of the `for result in rag_results` loop
(mcp_orchestrator.py:244-372): divert collection pages (recording a reference
only when a URL is present), apply the dietary filter, boost, and accept when
the boosted score reaches the threshold. Returns `(valid_results, collection_pages)`
in iteration order. -/
def processResults (rp : Option String) (prefs : Option Preferences) (thr : ℚ) :
    List Candidate → List Candidate × List CollectionPage
  | [] => ([], [])
  | r :: rest =>
    let acc := processResults rp prefs thr rest
    if isCollectionCorpus r.title then
      (acc.1, if r.url = "" then acc.2 else ⟨r.title, r.url⟩ :: acc.2)
    else if dietaryRejects prefs r then acc
    else
      let s := candidateBoostedScore rp prefs r
      if thr ≤ s then ({ r with score := s } :: acc.1, acc.2) else acc

/-- The comparison realised by Python's stable
`valid_results.sort(key=lambda x: x.get('score', 0), reverse=True)`
(mcp_orchestrator.py:376): on index-tagged candidates, strictly larger score
first, and among equal scores the smaller original index first. This is
exactly the documented semantics of a stable descending sort. -/
def sortRel (a b : ℕ × Candidate) : Prop :=
  b.2.score < a.2.score ∨ (a.2.score = b.2.score ∧ a.1 ≤ b.1)

instance : DecidableRel sortRel := fun a b =>
  inferInstanceAs (Decidable (b.2.score < a.2.score ∨ (a.2.score = b.2.score ∧ a.1 ≤ b.1)))

instance : IsTotal (ℕ × Candidate) sortRel where
  total a b := by
    rcases lt_trichotomy a.2.score b.2.score with h | h | h
    · exact Or.inr (Or.inl h)
    · rcases Nat.le_total a.1 b.1 with hi | hi
      · exact Or.inl (Or.inr ⟨h, hi⟩)
      · exact Or.inr (Or.inr ⟨h.symm, hi⟩)
    · exact Or.inl (Or.inl h)

instance : IsTrans (ℕ × Candidate) sortRel where
  trans a b c hab hbc := by
    rcases hab with hab | ⟨hab, iab⟩
    · rcases hbc with hbc | ⟨hbc, _⟩
      · exact Or.inl (hbc.trans hab)
      · exact Or.inl (hbc ▸ hab)
    · rcases hbc with hbc | ⟨hbc, ibc⟩
      · exact Or.inl (hab ▸ hbc)
      · exact Or.inr ⟨hab.trans hbc, iab.trans ibc⟩

/-- Python's stable descending sort by score (mcp_orchestrator.py:376),
embedded as an insertion sort over index-tagged elements under `sortRel`. -/
def pySortDesc (l : List Candidate) : List Candidate :=
  (l.enum.insertionSort sortRel).map Prod.snd

/-- Outcome of `_process_rag_pipeline` (its returned dict, restricted to the
fields later stages read, plus the collection pages it recorded). -/
structure RagResult where
  hasResults : Bool
  results : List Candidate
  summary : Option String
  collections : List CollectionPage
deriving DecidableEq

/-- `_process_rag_pipeline` after the `search_recipes` call
(mcp_orchestrator.py:208-439): detect the requested protein, filter and boost
candidates, sort, enforce that some accepted candidate carries the requested
protein, and truncate to 3. -/
def processRagPipeline (query : String) (ragResults : List Candidate) (thr : ℚ)
    (prefs : Option Preferences) : RagResult :=
  let rp := findRequestedProtein query
  let vc := processResults rp prefs thr ragResults
  if vc.1.isEmpty then ⟨false, [], none, vc.2⟩
  else
    let sorted := pySortDesc vc.1
    match rp with
    | some p =>
      if sorted.any (fun c => hasProteinB p c) then ⟨true, sorted.take 3, some "", vc.2⟩
      else ⟨false, [], none, vc.2⟩
    | none => ⟨true, sorted.take 3, some "", vc.2⟩

/-! ### The web fallback pipeline (`_process_web_pipeline`, mcp_orchestrator.py:572-891) -/

/-- Result of `scrape_recipes_from_collection` (recipe_scraper_pipeline.py:608-667). -/
structure CollectionResult where
  recipes : List Recipe
  ctype : String

/-- Outcome of `_process_web_pipeline` (its returned dict, restricted to the
fields `_combine_results` and the claims read). -/
structure WebResult where
  hasResults : Bool
  summary : Option String
  recipes : List Recipe
  collections : List CollectionPage
deriving DecidableEq

/-- Truthiness of `individual_recipe.get('description')`. -/
def descTruthy : Option String → Bool
  | some s => !(s = "")
  | none => false

/-- The direct classification loop over successfully scraped pages
(mcp_orchestrator.py:685-739): a page whose title triggers the inline
collection check (including the too-short-title branch) is recorded as a
collection page and its URL queued; otherwise it becomes an actual recipe.
Returns `(actual_recipes, collection_pages, collection_page_urls)` in order. -/
def classifyScraped : List Recipe → List Recipe × List CollectionPage × List String
  | [] => ([], [], [])
  | r :: rest =>
    let acc := classifyScraped rest
    if webInlineCollection r.title then
      (acc.1, ⟨r.title, r.source⟩ :: acc.2.1, r.source :: acc.2.2)
    else (r :: acc.1, acc.2.1, acc.2.2)

/-- The `for individual_recipe in extracted_recipes[:3]` loop
(mcp_orchestrator.py:800-832): skip the fetch-failure sentinel and anything
`is_collection_title` flags; rich-itemlist entries need a truthy title and
description, multi-page entries must pass `_is_valid_recipe`; stop as soon as
3 recipes are accumulated. -/
def addExtracted (ctype : String) : List Recipe → List Recipe → List Recipe
  | [], acc => acc
  | r :: rest, acc =>
    if !(r.title = "Could not fetch recipe") && !(isCollectionTitle r.title) then
      if ctype = "rich-itemlist" then
        if !(r.title = "") && descTruthy r.description then
          let acc2 := acc ++ [r]
          if 3 ≤ acc2.length then acc2 else addExtracted ctype rest acc2
        else addExtracted ctype rest acc
      else
        if isValidRecipe r.title r.ingredients then
          let acc2 := acc ++ [r]
          if 3 ≤ acc2.length then acc2 else addExtracted ctype rest acc2
        else addExtracted ctype rest acc
    else addExtracted ctype rest acc

/-- The `for col_url in collection_page_urls[:2]` loop
(mcp_orchestrator.py:784-841), with `scrape_recipes_from_collection` modelled
as the oracle `expand`; stops once 3 recipes are accumulated. -/
def expandCollections (expand : String → CollectionResult) :
    List String → List Recipe → List Recipe
  | [], acc => acc
  | u :: rest, acc =>
    let res := expand u
    if res.recipes.isEmpty then expandCollections expand rest acc
    else
      let acc2 := addExtracted res.ctype (res.recipes.take 3) acc
      if 3 ≤ acc2.length then acc2 else expandCollections expand rest acc2

/-- `_process_web_pipeline` from the point the parallel scrape returns
(mcp_orchestrator.py:631-891). `searchOk` models
`web_search_result.get("success") and web_search_result.get("results")`;
`scraped` is the raw parallel-scrape output (empty when the scrape raised);
`expand` models `scrape_recipes_from_collection`. -/
def processWebPipeline (searchOk : Bool) (scraped : List Recipe)
    (expand : String → CollectionResult) : WebResult :=
  if !searchOk then ⟨false, none, [], []⟩
  else
    let valid := scraped.filter (fun r => !(r.title = "Could not fetch recipe"))
    if valid.isEmpty then
      ⟨false, some "I found some recipe links online, but couldn\x27t extract the detailed information. Please try a different search.", [], []⟩
    else
      let cls := classifyScraped valid
      let actual :=
        if cls.2.2.isEmpty then cls.1
        else expandCollections expand (cls.2.2.take 2) cls.1
      if actual.isEmpty then
        ⟨false, some "I found some recipe collections online, but couldn\x27t extract specific dish recipes. Try being more specific (e.g., \x27chicken tikka recipe\x27 instead of \x27non-vegetarian recipes\x27).", [], []⟩
      else ⟨true, some "", actual.take 3, cls.2.1⟩

/-! ### The result combiner (`_combine_results`, mcp_orchestrator.py:1067-1103) -/

/-- Python `a or b` for an optional string versus a default. -/
def pyOrElse (s : Option String) (d : String) : String :=
  match s with
  | some s => if s = "" then d else s
  | none => d

/-- The no-results message of `_combine_results` (mcp_orchestrator.py:1087). -/
def noResultsMessage : String :=
  "I couldn\x27t find any recipes matching your request. Try:\n- Using different keywords (e.g., \x27pasta\x27 instead of \x27noodles\x27)\n- Being more specific (e.g., \x27vegetarian pasta recipes\x27)\n- Checking your spelling"

/-- Default web-branch message of `_combine_results` (mcp_orchestrator.py:1081). -/
def webBranchDefaultMessage : String :=
  "I found some recipes online. Check the details below."

/-- The combined response dict (mcp_orchestrator.py:1092-1103), restricted to
the fields the claims read. `recipes` is typed as a list of corpus candidates
because the web branch of `_combine_results` assigns `primary_recipes = []`;
web recipes only travel inside the embedded `webResults` dict. -/
structure FinalAnswer where
  question : String
  message : Option String
  primarySource : String
  recipes : List Candidate
  ragResults : RagResult
  webResults : Option WebResult
  hasDatabaseResults : Bool
  hasWebResults : Bool
  collectionPages : List CollectionPage
deriving DecidableEq

def webHas : Option WebResult → Bool
  | some w => w.hasResults
  | none => false

def webCollections : Option WebResult → List CollectionPage
  | some w => w.collections
  | none => []

/-- `_combine_results(query, rag_result, web_result)` (mcp_orchestrator.py:1067-1103). -/
def combineResults (query : String) (rag : RagResult) (web : Option WebResult) :
    FinalAnswer :=
  if rag.hasResults then
    { question := query, message := rag.summary, primarySource := "database",
      recipes := rag.results, ragResults := rag, webResults := web,
      hasDatabaseResults := rag.hasResults, hasWebResults := webHas web,
      collectionPages := webCollections web }
  else if webHas web then
    { question := query,
      message := some (pyOrElse (match web with | some w => w.summary | none => none)
        webBranchDefaultMessage),
      primarySource := "internet", recipes := [], ragResults := rag, webResults := web,
      hasDatabaseResults := rag.hasResults, hasWebResults := webHas web,
      collectionPages := webCollections web }
  else
    { question := query, message := some noResultsMessage, primarySource := "none",
      recipes := [], ragResults := rag, webResults := web,
      hasDatabaseResults := rag.hasResults, hasWebResults := webHas web,
      collectionPages := webCollections web }

/-! ### Per-URL scraping (`recipe_scraper_pipeline.py:259-285`) and the
parallel scrape -/

/-- The failure dict returned by `scrape_recipe_from_url` when the fetch or
the parse fails (recipe_scraper_pipeline.py:279-285). -/
def sentinelRecipe (url : String) : Recipe :=
  { title := "Could not fetch recipe", description := none,
    ingredients := [], instructions := [], source := url }

/-- `WebRecipeScraper.scrape_recipe_from_url` (recipe_scraper_pipeline.py:259-285):
fetching and parsing are oracles; any per-URL failure (timeout, fetch error,
unparsable HTML) yields the sentinel dict instead of raising. -/
def scrapeRecipeFromUrl (fetch : String → Option String)
    (parse : String → String → Option Recipe) (url : String) : Recipe :=
  match fetch url with
  | some htmlContent =>
    match parse htmlContent url with
    | some r => r
    | none => sentinelRecipe url
  | none => sentinelRecipe url

/-- Modelled from the spec: `scrape_recipes_parallel`, imported by the
orchestrator from `services.recipe_scraper_pipeline` (mcp_orchestrator.py:11,
643) but not present under src. Per the spec (4.6.2, section 5), each URL is
fetched independently with its own timeout and a failed fetch never aborts
the batch, so the batch result is the independent per-URL scrape of each
target, in order. -/
def scrapeRecipesParallel (fetch : String → Option String)
    (parse : String → String → Option Recipe) (urls : List String) : List Recipe :=
  urls.map (scrapeRecipeFromUrl fetch parse)

/-- The `valid_recipes` filter the orchestrator applies to the parallel-scrape
output (mcp_orchestrator.py:648-656): drop every sentinel. -/
def filterScraped (l : List Recipe) : List Recipe :=
  l.filter (fun r => !(r.title = "Could not fetch recipe"))

/-! ### Content fingerprint and deduplication -/

/-- Modelled from the spec: the dedup fingerprint. No fingerprint or
deduplication code exists anywhere under src; the spec (sections 3 and 8)
defines the fingerprint as a deterministic string derived from the title, the
concatenated ingredients and the concatenated instructions. -/
def recipeFingerprint (title : String) (ingredients instructions : List String) : String :=
  title ++ "|" ++ joinSp ingredients ++ "|" ++ joinSp instructions

def fpOf (r : Recipe) : String := recipeFingerprint r.title r.ingredients r.instructions

/-- Modelled from the spec: fingerprint deduplication of the final recipe set
(spec 4.6.7); keeps the first occurrence of each fingerprint. -/
def dedupGo : List Recipe → List String → List Recipe
  | [], _ => []
  | r :: rest, seen =>
    if fpOf r ∈ seen then dedupGo rest seen
    else r :: dedupGo rest (fpOf r :: seen)

/-- Modelled from the spec: deduplicate a recipe list by content fingerprint. -/
def dedupByFingerprint (l : List Recipe) : List Recipe := dedupGo l []

/-! ### Keyword boost / conflict penalty (`rag_engine._check_keyword_match`,
rag_engine.py:343-366) -/

/-- The conflict table (rag_engine.py:346-350). -/
def ingredientConflicts (ing : String) : List String :=
  if ing = "chicken" then ["tofu", "paneer", "vegetarian", "vegan"]
  else if ing = "paneer" then ["chicken", "beef", "pork"]
  else if ing = "tofu" then ["chicken", "beef", "pork"]
  else []

/-- `_check_keyword_match(all_terms, ingredient_terms, text)`
(rag_engine.py:343-366): a conflict yields `(-0.3, False)`, a missing critical
ingredient `(-0.2, False)`, otherwise `(min(0.15, matches*0.03), True)`. -/
def checkKeywordMatch (allTerms ingredientTerms : List String) (text : String) :
    ℚ × Bool :=
  let t := lowerS text
  if ingredientTerms.any (fun ing => (ingredientConflicts ing).any (fun c => subIn c t)) then
    (-3/10, false)
  else if ingredientTerms.any (fun ing => !(subIn ing t)) then
    (-2/10, false)
  else
    (min (15/100) (((allTerms.filter (fun x => subIn x t)).length : ℚ) * (3/100)), true)

/-! ### Concrete inputs used by the claim theorems -/

def demoPrawn1 : Candidate :=
  { score := 9/10, keywordMatch := false, title := "Prawn Curry Deluxe", url := "u1",
    ingredients := ["prawn", "rice"], instructions := ["cook"], servingsText := "" }

def demoPrawn2 : Candidate :=
  { score := 85/100, keywordMatch := false, title := "Prawn Masala", url := "u2",
    ingredients := ["prawn"], instructions := ["cook"], servingsText := "" }

def demoShrimp : Candidate :=
  { score := 8/10, keywordMatch := false, title := "Shrimp Curry", url := "u3",
    ingredients := ["shrimp"], instructions := ["cook"], servingsText := "" }

def demoLamb : Candidate :=
  { score := 2/10, keywordMatch := false, title := "Lamb Curry", url := "u4",
    ingredients := ["lamb"], instructions := ["cook"], servingsText := "" }

/-- A corpus whose three best matches are wrong-protein recipes while one
low-scoring lamb recipe is also accepted. -/
def demoC1Corpus : List Candidate := [demoPrawn1, demoPrawn2, demoShrimp, demoLamb]

/-- A corpus with no lamb anywhere. -/
def demoNoLambCorpus : List Candidate := [demoPrawn1]

def demoVeganPrefs : Preferences :=
  { diets := ["Vegan"], skill := none, servings := none, goal := none }

def demoVeganCandidate : Candidate :=
  { score := 9/10, keywordMatch := false, title := "Chickpea Curry", url := "u",
    ingredients := ["chickpeas", "onion"], instructions := ["cook"], servingsText := "" }

/-- A corpus candidate flagged as a collection page that carries no URL. -/
def demoColNoUrl : Candidate :=
  { score := 9/10, keywordMatch := false, title := "Best curries ever", url := "",
    ingredients := [], instructions := [], servingsText := "" }

/-- A corpus candidate flagged as a collection page that carries a URL. -/
def demoColUrl : Candidate :=
  { score := 9/10, keywordMatch := false, title := "Best curries ever", url := "http://x",
    ingredients := [], instructions := [], servingsText := "" }

def demoGoodWeb : Recipe :=
  { title := "Garlic Lamb Curry Recipe", description := none,
    ingredients := ["lamb", "salt"], instructions := ["cook"], source := "http://g" }

def demoExpandNone : String → CollectionResult := fun _ => ⟨[], "unknown"⟩

def demoWebRecipe : Recipe :=
  { title := "Pasta Bake", description := none, ingredients := ["pasta"],
    instructions := ["boil"], source := "http://w" }

def demoWebOut : WebResult :=
  { hasResults := true, summary := some "", recipes := [demoWebRecipe], collections := [] }

def demoEmptyRag : RagResult := processRagPipeline "zzz unfindable" [] (35/100) none

def demoVeganRag : RagResult :=
  processRagPipeline "curry" [demoVeganCandidate] (35/100) (some demoVeganPrefs)

def demoFetch : String → Option String :=
  fun u => if u = "b" || u = "d" then some "html" else none

def demoParse : String → String → Option Recipe :=
  fun _ url => some
    { title := "Pasta Bake", description := none,
      ingredients := ["pasta"], instructions := ["boil"], source := url }

/-- A corpus recipe and a web-scraped duplicate with identical content. -/
def demoDupCorpus : Recipe :=
  { title := "Pasta Bake", description := none, ingredients := ["pasta"],
    instructions := ["boil"], source := "corpus" }

def demoDupWeb : Recipe :=
  { title := "Pasta Bake", description := some "from the web", ingredients := ["pasta"],
    instructions := ["boil"], source := "http://w" }

/-- Ingredient lines every one of which matches the non-food boilerplate
vocabulary, yet whose term count stays under the code's cutoff. -/
def demoBoilerLines : List String :=
  ["subscribe salt", "subscribe salt", "subscribe salt", "subscribe salt"]

/-! ### Helper lemmas -/

theorem mem_of_mem_pySortDesc {l : List Candidate} {c : Candidate}
    (h : c ∈ pySortDesc l) : c ∈ l := by
  rw [pySortDesc] at h
  obtain ⟨q, hq, rfl⟩ := List.mem_map.mp h
  have hqe : q ∈ l.enum := (List.mem_insertionSort sortRel).mp hq
  have : q.2 ∈ l.enum.map Prod.snd := List.mem_map_of_mem _ hqe
  rwa [List.enum_map_snd] at this

theorem mem_processResults {rp : Option String} {prefs : Option Preferences} {thr : ℚ}
    {l : List Candidate} {c : Candidate}
    (h : c ∈ (processResults rp prefs thr l).1) :
    ∃ r ∈ l, c = { r with score := candidateBoostedScore rp prefs r } ∧
      isCollectionCorpus r.title = false ∧ dietaryRejects prefs r = false ∧
      thr ≤ candidateBoostedScore rp prefs r := by
  induction l with
  | nil => simp [processResults] at h
  | cons r rest ih =>
    simp only [processResults] at h
    by_cases h1 : isCollectionCorpus r.title
    · simp only [h1, if_true] at h
      obtain ⟨a, ha, hc⟩ := ih h
      exact ⟨a, List.mem_cons_of_mem _ ha, hc⟩
    · simp only [h1, if_false, Bool.false_eq_true] at h
      by_cases h2 : dietaryRejects prefs r
      · simp only [h2, if_true] at h
        obtain ⟨a, ha, hc⟩ := ih h
        exact ⟨a, List.mem_cons_of_mem _ ha, hc⟩
      · simp only [h2, if_false, Bool.false_eq_true] at h
        by_cases h3 : thr ≤ candidateBoostedScore rp prefs r
        · simp only [h3, if_true, List.mem_cons] at h
          rcases h with hc | h
          · exact ⟨r, List.mem_cons_self r rest, hc,
              Bool.not_eq_true _ ▸ eq_false_of_ne_true h1,
              Bool.not_eq_true _ ▸ eq_false_of_ne_true h2, h3⟩
          · obtain ⟨a, ha, hc⟩ := ih h
            exact ⟨a, List.mem_cons_of_mem _ ha, hc⟩
        · simp only [h3, if_false] at h
          obtain ⟨a, ha, hc⟩ := ih h
          exact ⟨a, List.mem_cons_of_mem _ ha, hc⟩

theorem mem_ragResults {query : String} {ragResults : List Candidate} {thr : ℚ}
    {prefs : Option Preferences} {c : Candidate}
    (h : c ∈ (processRagPipeline query ragResults thr prefs).results) :
    c ∈ (processResults (findRequestedProtein query) prefs thr ragResults).1 := by
  rw [processRagPipeline] at h
  by_cases he : (processResults (findRequestedProtein query) prefs thr ragResults).1.isEmpty
  · simp only [he, if_true] at h
    simp at h
  · simp only [he, if_false, Bool.false_eq_true] at h
    rcases hrp : findRequestedProtein query with _ | p
    · rw [hrp] at h
      exact mem_of_mem_pySortDesc (List.mem_of_mem_take h)
    · rw [hrp] at h
      by_cases ha : (pySortDesc
          (processResults (some p) prefs thr ragResults).1).any (fun c => hasProteinB p c)
      · simp only [ha, if_true] at h
        exact mem_of_mem_pySortDesc (List.mem_of_mem_take h)
      · simp only [ha, if_false, Bool.false_eq_true] at h
        simp at h

theorem collectionRecorded {rp : Option String} {prefs : Option Preferences} {thr : ℚ}
    {l : List Candidate} {r : Candidate}
    (hmem : r ∈ l) (hcol : isCollectionCorpus r.title = true) (hurl : ¬ r.url = "") :
    (⟨r.title, r.url⟩ : CollectionPage) ∈ (processResults rp prefs thr l).2 := by
  induction l with
  | nil => cases hmem
  | cons a rest ih =>
    rcases List.mem_cons.mp hmem with rfl | hmem2
    · simp only [processResults, hcol, if_true]
      simp [hurl]
    · have ht := ih hmem2
      simp only [processResults]
      by_cases h1 : isCollectionCorpus a.title
      · simp only [h1, if_true]
        by_cases h2 : a.url = ""
        · simpa [h2] using ht
        · simp only [h2, if_false]
          exact List.mem_cons_of_mem _ ht
      · simp only [h1, if_false, Bool.false_eq_true]
        by_cases h2 : dietaryRejects prefs a
        · simpa [h2] using ht
        · by_cases h3 : thr ≤ candidateBoostedScore rp prefs a <;>
            simp [h2, h3, ht]

theorem veganNoBanned {title ingredients : String} {diets : List String} {d : String}
    (hd : d ∈ diets) (hv : lowerS d = "vegan")
    (hok : checkDietaryCompatibility title ingredients diets = true) :
    ∀ t ∈ nonVeganIngredients, subIn t ingredients = false ∧ subIn t title = false := by
  intro t ht
  rw [checkDietaryCompatibility, List.all_eq_true] at hok
  have hdc := hok d hd
  rw [dietCheck] at hdc
  simp only [hv, if_true, List.all_eq_true] at hdc
  have := hdc t ht
  simp only [Bool.not_eq_true', Bool.or_eq_false_iff] at this
  exact this

theorem dietaryNotReject {prefs : Preferences} {c : Candidate}
    (hne : ¬ prefs.diets.isEmpty)
    (h : dietaryRejects (some prefs) c = false) :
    checkDietaryCompatibility (lowerS c.title) (lowerS (joinSp c.ingredients))
      prefs.diets = true := by
  rw [dietaryRejects] at h
  simp only [hne, Bool.false_eq_true, if_false, Bool.not_eq_false'] at h
  exact h

/-! Score-bound helper lemmas. -/

theorem applyBoost_bounds {s b : ℚ} (h0 : 0 ≤ s) (hb : 0 ≤ b) :
    0 ≤ applyBoost s b ∧ applyBoost s b ≤ 1 := by
  constructor
  · exact le_min (by norm_num) (by linarith)
  · exact min_le_left _ _

theorem condBoost_bounds {s b : ℚ} (cond : Bool) (h0 : 0 ≤ s) (h1 : s ≤ 1) (hb : 0 ≤ b) :
    0 ≤ condBoost cond b s ∧ condBoost cond b s ≤ 1 := by
  rw [condBoost]
  cases cond
  · simpa using ⟨h0, h1⟩
  · simpa using applyBoost_bounds h0 hb

theorem boostedSimilarity_bounds (sim kb : ℚ) :
    0 ≤ boostedSimilarity sim kb ∧ boostedSimilarity sim kb ≤ 1 := by
  rw [boostedSimilarity, clamp01]
  constructor
  · exact le_max_left 0 _
  · exact max_le (by norm_num) (min_le_left _ _)

theorem applyBoosts_min_eq {bs : List ℚ} :
    ∀ {s : ℚ}, s ≤ 1 → (∀ b ∈ bs, 0 ≤ b) →
      applyBoosts s bs = min 1 (s + bs.sum) := by
  induction bs with
  | nil =>
    intro s h1 _
    simp [applyBoosts, min_eq_right, h1]
  | cons b rest ih =>
    intro s h1 hb
    have hb0 : 0 ≤ b := hb b (List.mem_cons_self b rest)
    have hrest : ∀ x ∈ rest, 0 ≤ x := fun x hx => hb x (List.mem_cons_of_mem _ hx)
    have hsum : 0 ≤ rest.sum := List.sum_nonneg hrest
    have step : applyBoosts s (b :: rest) = applyBoosts (applyBoost s b) rest := rfl
    rw [step, applyBoost, ih (min_le_left _ _) hrest, List.sum_cons]
    rcases le_or_lt (s + b) 1 with hle | hgt
    · rw [min_eq_right hle, add_assoc]
    · rw [min_eq_left (le_of_lt hgt)]
      have hr : (1 : ℚ) ≤ s + (b + rest.sum) := by linarith
      rw [min_eq_left (by linarith : (1 : ℚ) ≤ 1 + rest.sum), min_eq_left hr]

theorem servingsStage_bounds (prefs : Option Preferences) (tl st : String) {s : ℚ}
    (h0 : 0 ≤ s) (h1 : s ≤ 1) :
    0 ≤ servingsStage prefs tl st s ∧ servingsStage prefs tl st s ≤ 1 := by
  rcases prefs with _ | p
  · exact ⟨h0, h1⟩
  · obtain ⟨pd, ps, pv, pg⟩ := p
    rcases pv with _ | n
    · exact ⟨h0, h1⟩
    · dsimp only [servingsStage]
      split
      · exact condBoost_bounds _ h0 h1 (by norm_num)
      · split
        · exact condBoost_bounds _ h0 h1 (by norm_num)
        · exact ⟨h0, h1⟩

theorem skillStage_bounds (prefs : Option Preferences) (tl : String) (n : Nat) {s : ℚ}
    (h0 : 0 ≤ s) (h1 : s ≤ 1) :
    0 ≤ skillStage prefs tl n s ∧ skillStage prefs tl n s ≤ 1 := by
  rcases prefs with _ | p
  · exact ⟨h0, h1⟩
  · obtain ⟨pd, ps, pv, pg⟩ := p
    rcases ps with _ | sk
    · exact ⟨h0, h1⟩
    · dsimp only [skillStage]
      split
      · have m1 := condBoost_bounds (beginnerWords.any (fun w => subIn w tl))
          h0 h1 (by norm_num : (0:ℚ) ≤ 3/100)
        exact condBoost_bounds _ m1.1 m1.2 (by norm_num)
      · split
        · have m1 := condBoost_bounds (advancedWords.any (fun w => subIn w tl))
            h0 h1 (by norm_num : (0:ℚ) ≤ 3/100)
          exact condBoost_bounds _ m1.1 m1.2 (by norm_num)
        · exact ⟨h0, h1⟩

theorem proteinStage_bounds (rp : Option String) (tl il : String) {s : ℚ}
    (h0 : 0 ≤ s) (h1 : s ≤ 1) :
    0 ≤ proteinStage rp tl il s ∧ proteinStage rp tl il s ≤ 1 := by
  rcases rp with _ | p
  · exact ⟨h0, h1⟩
  · dsimp only [proteinStage]
    split
    · exact applyBoost_bounds h0 (by norm_num)
    · split
      · exact applyBoost_bounds h0 (by norm_num)
      · exact ⟨h0, h1⟩

theorem candidateBoostedScore_bounds (rp : Option String) (prefs : Option Preferences)
    (c : Candidate) (h0 : 0 ≤ c.score) (h1 : c.score ≤ 1) :
    0 ≤ candidateBoostedScore rp prefs c ∧ candidateBoostedScore rp prefs c ≤ 1 := by
  rw [candidateBoostedScore]
  have hs := servingsStage_bounds prefs (lowerS c.title) c.servingsText h0 h1
  have hk := skillStage_bounds prefs (lowerS c.title) c.instructions.length hs.1 hs.2
  exact proteinStage_bounds rp _ _ hk.1 hk.2

/-! Web-pipeline membership lemmas. -/

theorem mem_classifyScraped {l : List Recipe} {r : Recipe}
    (h : r ∈ (classifyScraped l).1) : r ∈ l ∧ webInlineCollection r.title = false := by
  induction l with
  | nil => simp [classifyScraped] at h
  | cons a rest ih =>
    simp only [classifyScraped] at h
    by_cases h1 : webInlineCollection a.title
    · simp only [h1, if_true] at h
      obtain ⟨hm, hc⟩ := ih h
      exact ⟨List.mem_cons_of_mem _ hm, hc⟩
    · simp only [h1, if_false, Bool.false_eq_true, List.mem_cons] at h
      rcases h with rfl | h
      · exact ⟨List.mem_cons_self _ _, Bool.not_eq_true _ ▸ eq_false_of_ne_true h1⟩
      · obtain ⟨hm, hc⟩ := ih h
        exact ⟨List.mem_cons_of_mem _ hm, hc⟩

theorem mem_addExtracted {ctype : String} {items acc : List Recipe} {r : Recipe}
    (h : r ∈ addExtracted ctype items acc) :
    r ∈ acc ∨ isCollectionTitle r.title = false := by
  induction items generalizing acc with
  | nil => exact Or.inl h
  | cons a rest ih =>
    simp only [addExtracted] at h
    by_cases h1 : (!(a.title = "Could not fetch recipe") && !(isCollectionTitle a.title)) = true
    · rw [if_pos h1] at h
      have hCol : isCollectionTitle a.title = false := by
        rcases Bool.and_eq_true_iff.mp h1 with ⟨_, hb⟩
        simpa using hb
      by_cases h2 : ctype = "rich-itemlist"
      · rw [if_pos h2] at h
        by_cases h3 : (!(a.title = "") && descTruthy a.description) = true
        · rw [if_pos h3] at h
          by_cases h4 : 3 ≤ (acc ++ [a]).length
          · rw [if_pos h4] at h
            rcases List.mem_append.mp h with hm | hm
            · exact Or.inl hm
            · rcases List.mem_singleton.mp hm with rfl
              exact Or.inr hCol
          · rw [if_neg h4] at h
            rcases ih h with hm | hm
            · rcases List.mem_append.mp hm with hm2 | hm2
              · exact Or.inl hm2
              · rcases List.mem_singleton.mp hm2 with rfl
                exact Or.inr hCol
            · exact Or.inr hm
        · rw [if_neg h3] at h
          exact ih h
      · rw [if_neg h2] at h
        by_cases h3 : isValidRecipe a.title a.ingredients = true
        · rw [if_pos h3] at h
          by_cases h4 : 3 ≤ (acc ++ [a]).length
          · rw [if_pos h4] at h
            rcases List.mem_append.mp h with hm | hm
            · exact Or.inl hm
            · rcases List.mem_singleton.mp hm with rfl
              exact Or.inr hCol
          · rw [if_neg h4] at h
            rcases ih h with hm | hm
            · rcases List.mem_append.mp hm with hm2 | hm2
              · exact Or.inl hm2
              · rcases List.mem_singleton.mp hm2 with rfl
                exact Or.inr hCol
            · exact Or.inr hm
        · rw [if_neg (by simpa using h3)] at h
          exact ih h
    · rw [if_neg h1] at h
      exact ih h

theorem mem_expandCollections {expand : String → CollectionResult}
    {urls : List String} {acc : List Recipe} {r : Recipe}
    (h : r ∈ expandCollections expand urls acc) :
    r ∈ acc ∨ isCollectionTitle r.title = false := by
  induction urls generalizing acc with
  | nil => exact Or.inl h
  | cons u rest ih =>
    simp only [expandCollections] at h
    by_cases h1 : (expand u).recipes.isEmpty = true
    · rw [if_pos h1] at h
      exact ih h
    · rw [if_neg h1] at h
      by_cases h2 : 3 ≤ (addExtracted (expand u).ctype ((expand u).recipes.take 3) acc).length
      · rw [if_pos h2] at h
        exact mem_addExtracted h
      · rw [if_neg h2] at h
        rcases ih h with hm | hm
        · exact mem_addExtracted hm
        · exact Or.inr hm

/-- Every rule of `is_collection_title` is also a rule of the inline
direct-loop collection check. -/
theorem collTitle_imp_webInline {t : String}
    (h : isCollectionTitle t = true) : webInlineCollection t = true := by
  rw [isCollectionTitle, collTitleCore] at h
  rw [webInlineCollection, webInlineCore]
  by_cases hl : (stripS (lowerS t)).data.length < 10
  · rw [if_pos hl]
  · rw [if_neg hl] at h ⊢
    simp only [Bool.or_eq_true] at h ⊢
    tauto

theorem mem_webRecipes {searchOk : Bool} {scraped : List Recipe}
    {expand : String → CollectionResult} {r : Recipe}
    (h : r ∈ (processWebPipeline searchOk scraped expand).recipes) :
    isCollectionTitle r.title = false := by
  rw [processWebPipeline] at h
  by_cases hok : (!searchOk) = true
  · rw [if_pos hok] at h
    simp at h
  · rw [if_neg hok] at h
    by_cases hv : (scraped.filter (fun r => !(r.title = "Could not fetch recipe"))).isEmpty = true
    · rw [if_pos hv] at h
      simp at h
    · rw [if_neg hv] at h
      by_cases ha : (if (classifyScraped (scraped.filter
            (fun r => !(r.title = "Could not fetch recipe")))).2.2.isEmpty then
            (classifyScraped (scraped.filter
              (fun r => !(r.title = "Could not fetch recipe")))).1
          else expandCollections expand ((classifyScraped (scraped.filter
            (fun r => !(r.title = "Could not fetch recipe")))).2.2.take 2)
            (classifyScraped (scraped.filter
              (fun r => !(r.title = "Could not fetch recipe")))).1).isEmpty = true
      · rw [if_pos ha] at h
        simp at h
      · rw [if_neg ha] at h
        simp only at h
        have hmem := List.mem_of_mem_take h
        have hbase : ∀ x ∈ (classifyScraped (scraped.filter
            (fun r => !(r.title = "Could not fetch recipe")))).1,
            isCollectionTitle x.title = false := by
          intro x hx
          have hw := (mem_classifyScraped hx).2
          by_cases hc : isCollectionTitle x.title = true
          · rw [collTitle_imp_webInline hc] at hw
            cases hw
          · simpa using hc
        by_cases hurls : (classifyScraped (scraped.filter
            (fun r => !(r.title = "Could not fetch recipe")))).2.2.isEmpty = true
        · rw [if_pos hurls] at hmem
          exact hbase r hmem
        · rw [if_neg hurls] at hmem
          rcases mem_expandCollections hmem with hm | hm
          · exact hbase r hm
          · exact hm

/-! A needle containing no space that occurs in a space-joined text occurs in
one of the joined pieces. -/

theorem isPrefixL_split {b : List Char} :
    ∀ {n a : List Char}, (∀ c ∈ n, c ≠ ' ') →
      isPrefixL n (a ++ ' ' :: b) = true → isPrefixL n a = true := by
  intro n
  induction n with
  | nil => intro a _ _; rfl
  | cons d nd ih =>
    intro a hs h
    cases a with
    | nil =>
      rw [List.nil_append] at h
      simp only [isPrefixL, Bool.and_eq_true, decide_eq_true_eq] at h
      exact absurd h.1 (hs d (List.mem_cons_self _ _))
    | cons e ae =>
      rw [List.cons_append] at h
      simp only [isPrefixL, Bool.and_eq_true, decide_eq_true_eq] at h ⊢
      exact ⟨h.1, ih (fun c hc => hs c (List.mem_cons_of_mem _ hc)) h.2⟩

theorem containsL_split {n : List Char} (hs : ∀ c ∈ n, c ≠ ' ') :
    ∀ {a b : List Char}, containsL n (a ++ ' ' :: b) = true →
      containsL n a = true ∨ containsL n b = true := by
  intro a
  induction a with
  | nil =>
    intro b h
    rw [List.nil_append] at h
    simp only [containsL, Bool.or_eq_true] at h
    rcases h with h | h
    · cases n with
      | nil => exact Or.inr (by cases b <;> simp [containsL, isPrefixL])
      | cons d nd =>
        simp only [isPrefixL, Bool.and_eq_true, decide_eq_true_eq] at h
        exact absurd h.1 (hs d (List.mem_cons_self _ _))
    · exact Or.inr h
  | cons e ae ih =>
    intro b h
    rw [List.cons_append] at h
    simp only [containsL, Bool.or_eq_true] at h ⊢
    rcases h with h | h
    · exact Or.inl (Or.inl (isPrefixL_split hs h))
    · rcases ih h with h2 | h2
      · exact Or.inl (Or.inr h2)
      · exact Or.inr h2

theorem lowerS_data (s : String) : (lowerS s).data = s.data.map lowerC := rfl

theorem lowerS_joinSp_cons (x r : String) (rs : List String) :
    (lowerS (joinSp (x :: r :: rs))).data =
      (lowerS x).data ++ ' ' :: (lowerS (joinSp (r :: rs))).data := by
  have hj : joinSp (x :: r :: rs) = x ++ " " ++ joinSp (r :: rs) := rfl
  rw [hj, lowerS_data, String.data_append, String.data_append, List.map_append,
    List.map_append]
  have hsp : (" " : String).data.map lowerC = [' '] := rfl
  rw [hsp, lowerS_data, lowerS_data, List.append_assoc]
  rfl

theorem subIn_joinSp_exists {f : String} (hne : f.data ≠ [])
    (hs : ∀ ch ∈ f.data, ch ≠ ' ') :
    ∀ {l : List String}, subIn f (lowerS (joinSp l)) = true →
      ∃ x ∈ l, subIn f (lowerS x) = true := by
  intro l
  induction l with
  | nil =>
    intro h
    rw [subIn] at h
    have hd : (lowerS (joinSp [])).data = [] := rfl
    rw [hd] at h
    cases hf : f.data with
    | nil => exact absurd hf hne
    | cons c cs =>
      rw [hf] at h
      simp [containsL, isPrefixL] at h
  | cons x rest ih =>
    intro h
    cases rest with
    | nil =>
      exact ⟨x, List.mem_cons_self _ _, by simpa [joinSp] using h⟩
    | cons r rs =>
      rw [subIn, lowerS_joinSp_cons] at h
      rcases containsL_split hs h with h1 | h2
      · exact ⟨x, List.mem_cons_self _ _, h1⟩
      · obtain ⟨y, hy, hsy⟩ := ih h2
        exact ⟨y, List.mem_cons_of_mem _ hy, hsy⟩

/-! Fingerprint deduplication lemmas. -/

theorem dedupGo_not_seen {r : Recipe} :
    ∀ {l : List Recipe} {seen : List String}, r ∈ dedupGo l seen → fpOf r ∉ seen := by
  intro l
  induction l with
  | nil => intro seen h; cases h
  | cons a rest ih =>
    intro seen h
    rw [dedupGo] at h
    by_cases hm : fpOf a ∈ seen
    · rw [if_pos hm] at h
      exact ih h
    · rw [if_neg hm] at h
      rcases List.mem_cons.mp h with rfl | h2
      · exact hm
      · intro hcon
        exact ih h2 (List.mem_cons_of_mem _ hcon)

theorem dedupGo_pairwise :
    ∀ (l : List Recipe) (seen : List String),
      (dedupGo l seen).Pairwise (fun a b => fpOf a ≠ fpOf b) := by
  intro l
  induction l with
  | nil => intro seen; exact List.Pairwise.nil
  | cons a rest ih =>
    intro seen
    rw [dedupGo]
    by_cases hm : fpOf a ∈ seen
    · rw [if_pos hm]
      exact ih seen
    · rw [if_neg hm]
      refine List.Pairwise.cons ?_ (ih (fpOf a :: seen))
      intro b hb heq
      exact dedupGo_not_seen hb (heq ▸ List.mem_cons_self _ _)

/-! The web pipeline output never carries more than 3 recipes. -/

theorem webRecipes_capped (searchOk : Bool) (scraped : List Recipe)
    (expand : String → CollectionResult) :
    (processWebPipeline searchOk scraped expand).recipes.length ≤ 3 := by
  rw [processWebPipeline]
  by_cases hok : (!searchOk) = true
  · rw [if_pos hok]
    simp
  · rw [if_neg hok]
    by_cases hv : (scraped.filter
        (fun r => !(r.title = "Could not fetch recipe"))).isEmpty = true
    · rw [if_pos hv]
      simp
    · rw [if_neg hv]
      by_cases ha : (if (classifyScraped (scraped.filter
            (fun r => !(r.title = "Could not fetch recipe")))).2.2.isEmpty then
            (classifyScraped (scraped.filter
              (fun r => !(r.title = "Could not fetch recipe")))).1
          else expandCollections expand ((classifyScraped (scraped.filter
            (fun r => !(r.title = "Could not fetch recipe")))).2.2.take 2)
            (classifyScraped (scraped.filter
              (fun r => !(r.title = "Could not fetch recipe")))).1).isEmpty = true
      · rw [if_pos ha]
        simp
      · rw [if_neg ha]
        simp

/-! Sortedness lemmas for the result cap and ordering. -/

theorem pySortDesc_pairwise (l : List Candidate) :
    (pySortDesc l).Pairwise (fun a b => b.score ≤ a.score) := by
  rw [pySortDesc]
  apply List.pairwise_map.mpr
  have hs : (l.enum.insertionSort sortRel).Pairwise sortRel :=
    List.sorted_insertionSort sortRel l.enum
  refine hs.imp ?_
  intro a b hab
  rcases hab with hlt | ⟨heq, _⟩
  · exact le_of_lt hlt
  · exact le_of_eq heq.symm

/-- Stability of the embedded sort: among equal scores, the original
retrieval index never decreases. -/
theorem pySortDesc_stable (l : List Candidate) :
    (l.enum.insertionSort sortRel).Pairwise
      (fun a b => a.2.score = b.2.score → a.1 ≤ b.1) := by
  have hs : (l.enum.insertionSort sortRel).Pairwise sortRel :=
    List.sorted_insertionSort sortRel l.enum
  refine hs.imp ?_
  intro a b hab heq
  rcases hab with hlt | ⟨_, hle⟩
  · exact absurd hlt (by rw [heq]; exact lt_irrefl _)
  · exact hle

theorem ragResults_sorted_capped (query : String) (ragResults : List Candidate)
    (thr : ℚ) (prefs : Option Preferences) :
    (processRagPipeline query ragResults thr prefs).results.length ≤ 3 ∧
      (processRagPipeline query ragResults thr prefs).results.Pairwise
        (fun a b => b.score ≤ a.score) := by
  rw [processRagPipeline]
  by_cases he : (processResults (findRequestedProtein query) prefs thr ragResults).1.isEmpty
  · rw [if_pos he]
    exact ⟨by simp, List.Pairwise.nil⟩
  · rw [if_neg he]
    have hlen : ∀ m : List Candidate, (m.take 3).length ≤ 3 := by
      intro m
      simp
    have hpw : ∀ m : List Candidate,
        ((pySortDesc m).take 3).Pairwise (fun a b => b.score ≤ a.score) :=
      fun m => (pySortDesc_pairwise m).sublist (List.take_sublist 3 _)
    rcases findRequestedProtein query with _ | p
    · exact ⟨hlen _, hpw _⟩
    · dsimp only
      split
      · exact ⟨hlen _, hpw _⟩
      · exact ⟨by simp, List.Pairwise.nil⟩

/-! ### Claim theorems -/

/-- C1 (counterexample): for the query "lamb curry" against a corpus whose
three best accepted candidates are prawn/shrimp recipes and whose only lamb
recipe scores lowest, the corpus path reports results (because SOME accepted
candidate contains lamb), yet NO recipe of its top-3 answer contains lamb in
its title or ingredients — refuting "every recipe in a corpus-sourced final
answer for such a query contains the requested protein". -/
theorem c1_counterexample :
    findRequestedProtein "lamb curry" = some "lamb" ∧
    (processRagPipeline "lamb curry" demoC1Corpus (35/100) none).hasResults = true ∧
    (processRagPipeline "lamb curry" demoC1Corpus (35/100) none).results.length = 3 ∧
    ((processRagPipeline "lamb curry" demoC1Corpus (35/100) none).results.any
      (fun c => hasProteinB "lamb" c)) = false := by
  refine ⟨by with_unfolding_all decide, by with_unfolding_all decide,
    by with_unfolding_all decide, by with_unfolding_all decide⟩

/-- C1 (amended): when the query names a specific protein, (a) if no
accepted (post-boost) candidate contains that protein in title or
ingredients, the corpus path reports no qualifying results — an empty
accepted list, forcing the web fallback; (b) when the corpus path does
report results, at least one accepted candidate (pre-truncation) contains
the protein — but the truncated top-3 recipes of the final answer need not
contain it. -/
theorem c1_amended_protein_fidelity (q : String) (res : List Candidate) (thr : ℚ)
    (prefs : Option Preferences) (p : String) (hp : findRequestedProtein q = some p) :
    ((∀ c ∈ (processResults (some p) prefs thr res).1, hasProteinB p c = false) →
      (processRagPipeline q res thr prefs).hasResults = false ∧
      (processRagPipeline q res thr prefs).results = []) ∧
    ((processRagPipeline q res thr prefs).hasResults = true →
      ∃ c ∈ pySortDesc (processResults (some p) prefs thr res).1,
        hasProteinB p c = true) := by
  rw [processRagPipeline, hp]
  by_cases he : (processResults (some p) prefs thr res).1.isEmpty
  · rw [if_pos he]
    exact ⟨fun _ => ⟨rfl, rfl⟩, fun h => absurd h (by simp)⟩
  · rw [if_neg he]
    dsimp only
    by_cases hAny : (pySortDesc (processResults (some p) prefs thr res).1).any
        (fun c => hasProteinB p c) = true
    · rw [if_pos hAny]
      constructor
      · intro hall
        obtain ⟨c, hc, hcp⟩ := List.any_eq_true.mp hAny
        exact absurd hcp (by rw [hall c (mem_of_mem_pySortDesc hc)]; simp)
      · intro _
        exact List.any_eq_true.mp hAny
    · rw [if_neg hAny]
      exact ⟨fun _ => ⟨rfl, rfl⟩, fun h => absurd h (by simp)⟩

/-- C1 (witness for the amended theorem): against a corpus with no lamb at
all, the "lamb curry" corpus path reports no qualifying results; against
`demoC1Corpus`, where results exist, some accepted candidate contains lamb. -/
theorem c1_witness :
    ((processRagPipeline "lamb curry" demoNoLambCorpus (35/100) none).hasResults = false ∧
     (processRagPipeline "lamb curry" demoNoLambCorpus (35/100) none).results = []) ∧
    (∃ c ∈ pySortDesc (processResults (some "lamb") none (35/100) demoC1Corpus).1,
      hasProteinB "lamb" c = true) := by
  constructor
  · exact (c1_amended_protein_fidelity "lamb curry" demoNoLambCorpus (35/100) none "lamb"
      (by with_unfolding_all decide)).1 (by with_unfolding_all decide)
  · exact (c1_amended_protein_fidelity "lamb curry" demoC1Corpus (35/100) none "lamb"
      (by with_unfolding_all decide)).2 (by with_unfolding_all decide)

/-- C2: whenever the caller preferences include a diet tag whose lower-casing
is "vegan", every candidate accepted by the corpus pipeline is free of every
banned non-vegan ingredient term, in both its lower-cased title and its
lower-cased joined ingredient text — the failed gate is a reject, not a
score penalty, so no accepted recipe carries a banned term. -/
theorem c2_vegan_hard_gate (q : String) (res : List Candidate) (thr : ℚ)
    (p : Preferences) (d : String) (hd : d ∈ p.diets) (hv : lowerS d = "vegan") :
    ∀ c ∈ (processRagPipeline q res thr (some p)).results,
      ∀ t ∈ nonVeganIngredients,
        subIn t (lowerS (joinSp c.ingredients)) = false ∧
          subIn t (lowerS c.title) = false := by
  intro c hc t ht
  have hmem := mem_ragResults hc
  obtain ⟨r, hr, hceq, hcol, hdr, hthr⟩ := mem_processResults hmem
  have hne : ¬ p.diets.isEmpty := by
    cases hdl : p.diets with
    | nil => rw [hdl] at hd; cases hd
    | cons a rest => simp [hdl]
  have hok := dietaryNotReject hne hdr
  have hres := veganNoBanned hd hv hok t ht
  rw [hceq]
  exact hres

/-- C2 (witness): with preferences `["Vegan"]`, the accepted candidate
"Chickpea Curry" carries no banned term; e.g. "chicken" occurs in neither
its joined ingredients nor its title. -/
theorem c2_witness :
    (demoVeganCandidate ∈ (processRagPipeline "curry" [demoVeganCandidate] (35/100)
        (some demoVeganPrefs)).results) ∧
    subIn "chicken" (lowerS (joinSp demoVeganCandidate.ingredients)) = false ∧
    subIn "chicken" (lowerS demoVeganCandidate.title) = false := by
  have hm : demoVeganCandidate ∈ (processRagPipeline "curry" [demoVeganCandidate]
      (35/100) (some demoVeganPrefs)).results := by with_unfolding_all decide
  exact ⟨hm, c2_vegan_hard_gate "curry" [demoVeganCandidate] (35/100) demoVeganPrefs
    "Vegan" (by with_unfolding_all decide) (by with_unfolding_all decide)
    demoVeganCandidate hm "chicken" (by with_unfolding_all decide)⟩

/-- C3 (counterexample): the corpus candidate "Best curries ever" with an
empty URL is flagged as a collection page, yet the pipeline records NO
collection-page reference for it (and returns no recipes) — refuting
"any corpus candidate … flagged as a collection page is recorded separately
as a collection-page reference". -/
theorem c3_counterexample :
    isCollectionCorpus demoColNoUrl.title = true ∧
    (processRagPipeline "curry" [demoColNoUrl] (35/100) none).results = [] ∧
    (processRagPipeline "curry" [demoColNoUrl] (35/100) none).collections = [] := by
  refine ⟨by with_unfolding_all decide, by with_unfolding_all decide,
    by with_unfolding_all decide⟩

/-- C3 (amended): (i) no candidate flagged by the corpus collection check is
ever accepted into the corpus results; (ii) a flagged corpus candidate is
recorded as a collection-page reference whenever it carries a non-empty URL
(flagged candidates without a URL are silently dropped); (iii) no recipe
returned by the web pipeline is flagged by `is_collection_title` — flagged
scraped pages are diverted to the collection-page list, never to recipes. -/
theorem c3_amended_collections :
    (∀ (q : String) (res : List Candidate) (thr : ℚ) (prefs : Option Preferences)
        (c : Candidate), c ∈ (processRagPipeline q res thr prefs).results →
        isCollectionCorpus c.title = false) ∧
    (∀ (rp : Option String) (prefs : Option Preferences) (thr : ℚ)
        (res : List Candidate) (r : Candidate), r ∈ res →
        isCollectionCorpus r.title = true → ¬ r.url = "" →
        (⟨r.title, r.url⟩ : CollectionPage) ∈ (processResults rp prefs thr res).2) ∧
    (∀ (searchOk : Bool) (scraped : List Recipe) (expand : String → CollectionResult)
        (r : Recipe), r ∈ (processWebPipeline searchOk scraped expand).recipes →
        isCollectionTitle r.title = false) := by
  refine ⟨?_, ?_, ?_⟩
  · intro q res thr prefs c hc
    obtain ⟨r, hr, hceq, hcol, _, _⟩ := mem_processResults (mem_ragResults hc)
    rw [hceq]
    exact hcol
  · intro rp prefs thr res r hmem hcol hurl
    exact collectionRecorded hmem hcol hurl
  · intro searchOk scraped expand r hr
    exact mem_webRecipes hr

/-- C3 (witness): the accepted candidate "Chickpea Curry" is not
collection-flagged; the flagged "Best curries ever" WITH a URL is recorded;
the web recipe "Garlic Lamb Curry Recipe" is not collection-flagged. -/
theorem c3_witness :
    isCollectionCorpus demoVeganCandidate.title = false ∧
    ((⟨demoColUrl.title, demoColUrl.url⟩ : CollectionPage) ∈
      (processResults none none (35/100) [demoColUrl]).2) ∧
    isCollectionTitle demoGoodWeb.title = false := by
  refine ⟨?_, ?_, ?_⟩
  · exact c3_amended_collections.1 "curry" [demoVeganCandidate] (35/100) none
      demoVeganCandidate (by with_unfolding_all decide)
  · exact c3_amended_collections.2.1 none none (35/100) [demoColUrl] demoColUrl
      (by with_unfolding_all decide) (by with_unfolding_all decide)
      (by with_unfolding_all decide)
  · exact c3_amended_collections.2.2 true [demoGoodWeb] demoExpandNone demoGoodWeb
      (by with_unfolding_all decide)

/-- C4: for every query/corpus/preferences/web combination, the recipes list
of the combined final answer has length at most 3 and is sorted by final
(post-boost) score in descending order; the underlying sort is the stable
descending sort: among index-tagged candidates with equal scores the
original retrieval index never decreases (no re-randomization); and the web
pipeline's own recipe list is likewise capped at 3. -/
theorem c4_result_cap_and_ordering (q : String) (res : List Candidate) (thr : ℚ)
    (prefs : Option Preferences) (web : Option WebResult) :
    (combineResults q (processRagPipeline q res thr prefs) web).recipes.length ≤ 3 ∧
    (combineResults q (processRagPipeline q res thr prefs) web).recipes.Pairwise
      (fun a b => b.score ≤ a.score) ∧
    (∀ l : List Candidate, (l.enum.insertionSort sortRel).Pairwise
      (fun a b => a.2.score = b.2.score → a.1 ≤ b.1)) ∧
    (∀ (searchOk : Bool) (scraped : List Recipe) (expand : String → CollectionResult),
      (processWebPipeline searchOk scraped expand).recipes.length ≤ 3) := by
  have hcomb : (combineResults q (processRagPipeline q res thr prefs) web).recipes =
        (processRagPipeline q res thr prefs).results ∨
      (combineResults q (processRagPipeline q res thr prefs) web).recipes = [] := by
    rw [combineResults.eq_def]
    by_cases h1 : (processRagPipeline q res thr prefs).hasResults = true
    · rw [if_pos h1]
      exact Or.inl rfl
    · rw [if_neg h1]
      by_cases h2 : webHas web = true
      · rw [if_pos h2]
        exact Or.inr rfl
      · rw [if_neg h2]
        exact Or.inr rfl
  have hrag := ragResults_sorted_capped q res thr prefs
  refine ⟨?_, ?_, fun l => pySortDesc_stable l, fun s sc e => webRecipes_capped s sc e⟩
  · rcases hcomb with h | h <;> rw [h]
    · exact hrag.1
    · simp
  · rcases hcomb with h | h <;> rw [h]
    · exact hrag.2
    · exact List.Pairwise.nil

/-- C5 (counterexample): with an empty corpus result and a web fallback that
produced one recipe, the combined answer's primary source is "internet" but
its recipes list is EMPTY — `_combine_results` assigns `primary_recipes = []`
in the web branch — refuting "the final answer uses the web-fallback
recipes". -/
theorem c5_counterexample :
    demoEmptyRag.hasResults = false ∧
    demoWebOut.hasResults = true ∧
    demoWebOut.recipes = [demoWebRecipe] ∧
    (combineResults "zzz unfindable" demoEmptyRag (some demoWebOut)).primarySource =
      "internet" ∧
    (combineResults "zzz unfindable" demoEmptyRag (some demoWebOut)).recipes = [] := by
  refine ⟨by with_unfolding_all decide, rfl, rfl, by with_unfolding_all decide,
    by with_unfolding_all decide⟩

/-- C5 (amended): the combiner prefers corpus recipes when the corpus path
has results; otherwise, when the web fallback has results, the top-level
recipes list is EMPTY and the web recipes travel only inside the embedded
web-results payload; otherwise the answer is the explicit no-results message,
which contains the query-refinement guidance (different keywords, more
specificity, spelling check), with an empty recipes list. -/
theorem c5_amended_combiner (q : String) (rag : RagResult) (web : Option WebResult) :
    (rag.hasResults = true →
      (combineResults q rag web).recipes = rag.results ∧
      (combineResults q rag web).primarySource = "database") ∧
    (rag.hasResults = false → ∀ w, web = some w → w.hasResults = true →
      (combineResults q rag web).recipes = [] ∧
      (combineResults q rag web).primarySource = "internet" ∧
      (combineResults q rag web).webResults = some w) ∧
    (rag.hasResults = false → (∀ w, web = some w → w.hasResults = false) →
      (combineResults q rag web).message = some noResultsMessage ∧
      (combineResults q rag web).recipes = [] ∧
      subIn "different keywords" noResultsMessage = true ∧
      subIn "more specific" noResultsMessage = true ∧
      subIn "spelling" noResultsMessage = true) := by
  refine ⟨?_, ?_, ?_⟩
  · intro h1
    rw [combineResults.eq_def, if_pos h1]
    exact ⟨rfl, rfl⟩
  · intro h1 w hw hwr
    have hnot : ¬ rag.hasResults = true := by rw [h1]; simp
    have hwh : webHas web = true := by rw [hw, webHas, hwr]
    rw [combineResults.eq_def, if_neg hnot, if_pos hwh]
    exact ⟨rfl, rfl, by rw [hw]⟩
  · intro h1 hw
    have hnot : ¬ rag.hasResults = true := by rw [h1]; simp
    have hwh : ¬ webHas web = true := by
      cases hweb : web with
      | none => rw [webHas]; simp
      | some w => rw [webHas, hw w hweb]; simp
    rw [combineResults.eq_def, if_neg hnot, if_neg hwh]
    exact ⟨rfl, rfl, by with_unfolding_all decide, by with_unfolding_all decide,
      by with_unfolding_all decide⟩

/-- C5 (witness): the three combiner branches at concrete inputs — a corpus
answer keeps its recipes; a web answer keeps an empty top-level list with the
web payload attached; no results at all yields the guidance message. -/
theorem c5_witness :
    ((combineResults "curry" demoVeganRag none).recipes = demoVeganRag.results) ∧
    ((combineResults "zzz" demoEmptyRag (some demoWebOut)).recipes = [] ∧
      (combineResults "zzz" demoEmptyRag (some demoWebOut)).webResults =
        some demoWebOut) ∧
    ((combineResults "zzz" demoEmptyRag none).message = some noResultsMessage) := by
  refine ⟨?_, ?_, ?_⟩
  · exact ((c5_amended_combiner "curry" demoVeganRag none).1
      (by with_unfolding_all decide)).1
  · have h := (c5_amended_combiner "zzz" demoEmptyRag (some demoWebOut)).2.1
      (by with_unfolding_all decide) demoWebOut rfl rfl
    exact ⟨h.1, h.2.2⟩
  · exact ((c5_amended_combiner "zzz" demoEmptyRag none).2.2
      (by with_unfolding_all decide) (fun w hw => by cases hw)).1

/-- C6: in the web fallback, each URL is scraped independently; a failed
fetch yields the sentinel dict, and the orchestrator's filter drops exactly
the sentinels — so with 5 fetch targets of which the 1st, 3rd and 5th fail,
the recipes parsed from the 2 successful fetches are still returned, in
order, with no error surfaced. (`scrape_recipes_parallel` itself is modelled
from the spec since it is imported but absent from src.) -/
theorem c6_partial_fetch_tolerance (fetch : String → Option String)
    (parse : String → String → Option Recipe) (u1 u2 u3 u4 u5 : String)
    (r2 r4 : Recipe)
    (h1 : fetch u1 = none) (h3 : fetch u3 = none) (h5 : fetch u5 = none)
    (h2 : scrapeRecipeFromUrl fetch parse u2 = r2)
    (h2t : ¬ r2.title = "Could not fetch recipe")
    (h4 : scrapeRecipeFromUrl fetch parse u4 = r4)
    (h4t : ¬ r4.title = "Could not fetch recipe") :
    filterScraped (scrapeRecipesParallel fetch parse [u1, u2, u3, u4, u5]) =
      [r2, r4] := by
  have e1 : scrapeRecipeFromUrl fetch parse u1 = sentinelRecipe u1 := by
    rw [scrapeRecipeFromUrl, h1]
  have e3 : scrapeRecipeFromUrl fetch parse u3 = sentinelRecipe u3 := by
    rw [scrapeRecipeFromUrl, h3]
  have e5 : scrapeRecipeFromUrl fetch parse u5 = sentinelRecipe u5 := by
    rw [scrapeRecipeFromUrl, h5]
  rw [scrapeRecipesParallel, filterScraped]
  simp only [List.map_cons, List.map_nil, e1, e3, e5, h2, h4]
  rw [List.filter_cons_of_neg (by simp [sentinelRecipe]),
    List.filter_cons_of_pos (by simpa using h2t),
    List.filter_cons_of_neg (by simp [sentinelRecipe]),
    List.filter_cons_of_pos (by simpa using h4t),
    List.filter_cons_of_neg (by simp [sentinelRecipe]),
    List.filter_nil]

/-- C6 (witness): a concrete 5-target batch where targets "a", "c", "e" fail
to fetch and "b", "d" succeed still yields exactly the two parsed recipes. -/
theorem c6_witness :
    (demoFetch "a" = none ∧ demoFetch "c" = none ∧ demoFetch "e" = none) ∧
    filterScraped (scrapeRecipesParallel demoFetch demoParse ["a", "b", "c", "d", "e"]) =
      [{ title := "Pasta Bake", description := none, ingredients := ["pasta"],
         instructions := ["boil"], source := "b" },
       { title := "Pasta Bake", description := none, ingredients := ["pasta"],
         instructions := ["boil"], source := "d" }] := by
  refine ⟨⟨rfl, rfl, rfl⟩, ?_⟩
  exact c6_partial_fetch_tolerance demoFetch demoParse "a" "b" "c" "d" "e" _ _
    rfl rfl rfl rfl (by with_unfolding_all decide) rfl (by with_unfolding_all decide)

/-- C7 (counterexample): with four ingredient lines every one of which
matches the non-food boilerplate vocabulary (100% of the lines, far above
30%), the validator still returns TRUE, because the code counts matching
vocabulary TERMS (here just "subscribe", 1 ≤ 4·0.3) rather than matching
lines — refuting "returns false when more than ~30% of the ingredient lines
match the non-food boilerplate vocabulary". -/
theorem c7_counterexample :
    ((demoBoilerLines.length : ℚ) * (3/10) <
      ((demoBoilerLines.filter (fun line => nonFoodTerms.any
        (fun x => subIn x (lowerS line)))).length : ℚ)) ∧
    isValidRecipe "tomato soup" demoBoilerLines = true := by
  exact ⟨by with_unfolding_all decide, by with_unfolding_all decide⟩

/-- C7 (amended): the validator returns false when the ingredient list is
empty; returns false when the count of non-food vocabulary TERMS occurring in
the joined ingredient text exceeds 30% of the number of ingredient lines
(a term count, not a per-line percentage); and returns true only if at least
one ingredient line contains a known real-food vocabulary word. -/
theorem c7_amended_validator_rules (t : String) (l : List String) :
    isValidRecipe t [] = false ∧
    ((l.length : ℚ) * (3/10) <
        ((nonFoodTerms.filter (fun x => subIn x (lowerS (joinSp l)))).length : ℚ) →
      isValidRecipe t l = false) ∧
    (isValidRecipe t l = true →
      l.any (fun line => realFoodIndicators.any (fun f => subIn f (lowerS line))) = true) := by
  refine ⟨?_, ?_, ?_⟩
  · rw [isValidRecipe]
    split
    · rfl
    · rfl
  · intro hcut
    rw [isValidRecipe]
    split
    · rfl
    · split
      · rfl
      · rw [if_pos hcut]
  · intro hvalid
    rw [isValidRecipe] at hvalid
    by_cases ht : invalidTitleTerms.any (fun x => subIn x (lowerS t)) = true
    · rw [if_pos ht] at hvalid
      cases hvalid
    · rw [if_neg ht] at hvalid
      by_cases hemp : l.isEmpty = true
      · rw [if_pos hemp] at hvalid
        cases hvalid
      · rw [if_neg hemp] at hvalid
        by_cases hcut : (l.length : ℚ) * (3/10) <
            ((nonFoodTerms.filter (fun x => subIn x (lowerS (joinSp l)))).length : ℚ)
        · rw [if_pos hcut] at hvalid
          cases hvalid
        · rw [if_neg hcut] at hvalid
          obtain ⟨f, hf, hsub⟩ := List.any_eq_true.mp hvalid
          have hprops : f.data ≠ [] ∧ ∀ ch ∈ f.data, ch ≠ ' ' := by
            revert hf
            have : ∀ g ∈ realFoodIndicators, g.data ≠ [] ∧ ∀ ch ∈ g.data, ch ≠ ' ' := by
              with_unfolding_all decide
            exact this f
          obtain ⟨x, hx, hsx⟩ := subIn_joinSp_exists hprops.1 hprops.2 hsub
          exact List.any_eq_true.mpr ⟨x, hx, List.any_eq_true.mpr ⟨f, hf, hsx⟩⟩

/-- C7 (witness): boilerplate-only lines are rejected by the term-count rule,
and a validated lamb-and-salt recipe indeed has a real-food line. -/
theorem c7_witness :
    isValidRecipe "pasta dinner" ["subscribe", "newsletter", "follow"] = false ∧
    (["lamb", "salt"].any (fun line => realFoodIndicators.any
      (fun f => subIn f (lowerS line))) = true) := by
  constructor
  · exact (c7_amended_validator_rules "pasta dinner"
      ["subscribe", "newsletter", "follow"]).2.1 (by with_unfolding_all decide)
  · exact (c7_amended_validator_rules "Lamb Curry" ["lamb", "salt"]).2.2
      (by with_unfolding_all decide)

/-- C8 (counterexample): with cosine similarity 0.1, a keyword conflict
penalty of −0.3 (exactly what `_check_keyword_match` returns on a conflict,
as the last conjunct shows), and a later protein-title boost of +0.3, the
composed scoring of the code yields 0.3 while the one-shot
`clamp(similarity + sumOfBoosts, 0, 1)` of the claim yields 0.1 — the lower
clamp applied between the two layers breaks the one-shot clamp law. -/
theorem c8_counterexample :
    applyBoosts (boostedSimilarity (1/10) (-3/10)) [(3/10 : ℚ)] ≠
      specFinalScore (1/10) [(-3/10 : ℚ), 3/10] ∧
    checkKeywordMatch ["paneer"] ["paneer"] "Chicken Curry" = (-3/10, false) := by
  exact ⟨by with_unfolding_all decide, by with_unfolding_all decide⟩

/-- C8 (amended): the rag layer clamps `similarity + keywordBoost` into
[0,1]; the orchestrator then applies each later (nonnegative) boost as
`min(1, score + b)`, which collectively equals
`min(1, clampedBase + sumOfBoosts)`; consequently the boosted score always
lies in [0,1], and every candidate score boosted by the pipeline stages
stays in [0,1]. -/
theorem c8_amended_clamp_law (sim kb : ℚ) (bs : List ℚ) (hb : ∀ b ∈ bs, 0 ≤ b) :
    applyBoosts (boostedSimilarity sim kb) bs =
      min 1 (boostedSimilarity sim kb + bs.sum) ∧
    0 ≤ applyBoosts (boostedSimilarity sim kb) bs ∧
    applyBoosts (boostedSimilarity sim kb) bs ≤ 1 ∧
    (∀ (rp : Option String) (prefs : Option Preferences) (c : Candidate),
      0 ≤ c.score → c.score ≤ 1 →
      0 ≤ candidateBoostedScore rp prefs c ∧ candidateBoostedScore rp prefs c ≤ 1) := by
  have hbd := boostedSimilarity_bounds sim kb
  have heq := applyBoosts_min_eq hbd.2 hb
  have hsum : 0 ≤ bs.sum := List.sum_nonneg hb
  refine ⟨heq, ?_, ?_, fun rp prefs c h0 h1 => candidateBoostedScore_bounds rp prefs c h0 h1⟩
  · rw [heq]
    exact le_min (by norm_num) (by linarith [hbd.1])
  · rw [heq]
    exact min_le_left _ _

/-- C8 (witness): the amended law at similarity 0.1, keyword boost −0.3 and
one later boost of +0.3. -/
theorem c8_witness :
    applyBoosts (boostedSimilarity (1/10) (-3/10)) [(3/10 : ℚ)] =
      min 1 (boostedSimilarity (1/10) (-3/10) + ([(3/10 : ℚ)]).sum) ∧
    0 ≤ applyBoosts (boostedSimilarity (1/10) (-3/10)) [(3/10 : ℚ)] ∧
    applyBoosts (boostedSimilarity (1/10) (-3/10)) [(3/10 : ℚ)] ≤ 1 := by
  have h := c8_amended_clamp_law (1/10) (-3/10) [(3/10 : ℚ)] (by norm_num)
  exact ⟨h.1, h.2.1, h.2.2.1⟩

/-- C9: the collection-page classifier is a pure function of the title (the
web path never passes a URL, so the result is trivially independent of any
URL argument), repeated applications agree, and on the spec's concrete
examples it flags "21 Easy Vegan Snacks" and passes
"Garlic Lamb Curry Recipe". -/
theorem c9_classifier_pure_and_examples :
    (∀ t : String, isCollectionTitle t = isCollectionTitle t) ∧
    isCollectionTitle "21 Easy Vegan Snacks" = true ∧
    isCollectionTitle "Garlic Lamb Curry Recipe" = false := by
  exact ⟨fun _ => rfl, by with_unfolding_all decide, by with_unfolding_all decide⟩

/-- C10: the dedup fingerprint is a function of exactly
(title, ingredients, instructions) — identical input yields the identical
fingerprint; deduplication by fingerprint leaves no two entries with the
same fingerprint in the final set; and a corpus recipe and a web-scraped
duplicate with identical content are merged into a single entry. (The
fingerprint and the deduplication are modelled from the spec: no such code
exists under src.) -/
theorem c10_fingerprint_dedup :
    (∀ (t1 t2 : String) (i1 i2 n1 n2 : List String), t1 = t2 → i1 = i2 → n1 = n2 →
      recipeFingerprint t1 i1 n1 = recipeFingerprint t2 i2 n2) ∧
    (∀ l : List Recipe, (dedupByFingerprint l).Pairwise (fun a b => fpOf a ≠ fpOf b)) ∧
    (∀ a b : Recipe, fpOf a = fpOf b → dedupByFingerprint [a, b] = [a]) := by
  refine ⟨?_, ?_, ?_⟩
  · intro t1 t2 i1 i2 n1 n2 ht hi hn
    rw [ht, hi, hn]
  · intro l
    exact dedupGo_pairwise l []
  · intro a b hab
    rw [dedupByFingerprint, dedupGo]
    rw [if_neg (by simp)]
    rw [dedupGo, if_pos (by rw [← hab]; exact List.mem_cons_self _ _)]
    rfl

/-- C10 (witness): a corpus recipe and a web-scraped duplicate with the same
title, ingredients and instructions fingerprint identically and are merged
into one entry. -/
theorem c10_witness :
    fpOf demoDupCorpus = fpOf demoDupWeb ∧
    dedupByFingerprint [demoDupCorpus, demoDupWeb] = [demoDupCorpus] := by
  exact ⟨rfl, c10_fingerprint_dedup.2.2 demoDupCorpus demoDupWeb rfl⟩

end Culinara
